import Mathlib

/-!
This file is a shallow embedding in Lean 4 of the goroutine pool in
`pool.go` (package `ants`), together with theorems checking the
natural-language specification of the pool against the code.

Modelling conventions.

* Workers are identified by natural numbers.  Minting a fresh `Worker`
  (`&Worker{...}` in Go) allocates the next unused identifier, recorded
  in the field `nextWorkerId`; distinct identifiers are distinct Worker
  instances.
* Go channels and atomics are sequentialized: `freeSignal`, a buffered
  channel of unit values, becomes a natural-number counter of buffered
  units; the `release` channel is tracked by the flag `releaseClosed`
  (Go panics on closing an already-closed channel, modelled by `Release`
  returning `none`); the `closed` int32 flag becomes a `Bool`.
* `sync.Pool` (`workerPool`) is a cache whose `Get` is nondeterministic:
  per the Go documentation, `Get` "selects an arbitrary item from the
  Pool" and any stored item "may be removed automatically at any time"
  by the garbage collector, so `Get` may return `nil` even after `Put`s.
  Each call that performs a `Get` therefore takes an oracle `choice`
  parameter fixing the outcome of that `Get`; the predicate
  `validGetChoice` says which outcomes the Go runtime permits
  (`none` — i.e. `nil` — is always permitted).
* Operations that can block forever in Go (`<-p.freeSignal` on an empty
  channel, or the busy-retry loop in `getWorker` spinning on an idle
  stack that, in a sequential execution, can never be refilled) return
  `none` / `blocked`.
* Go `int`/`int32` counters are modelled as unbounded `Int`; none of the
  checked claims concerns integer-width overflow.
-/

/-- Errors surfaced by the pool (`PoolSizeInvalidError` and
`PoolClosedError` in the Go source). -/
inductive PoolError
  | PoolSizeInvalidError
  | PoolClosedError
  deriving DecidableEq, Repr

/-- State of `type Pool struct` from `pool.go`:
`capacity` and `running` are the two int32 counters; `freeSignal` counts
the unit values buffered in the `freeSignal` channel; `workers` is the
slice of idle workers (top of the stack is the LAST element, matching
`append` / `workers[len-1]`); `workerPool` lists the contents of the
`sync.Pool` cache; `releaseClosed` records whether the `release` channel
has been closed; `closed` is the closed flag; `nextWorkerId` is the
allocator for fresh Worker identities. -/
structure PoolState where
  capacity : Int
  running : Int
  freeSignal : Nat
  workers : List Nat
  workerPool : List Nat
  releaseClosed : Bool
  closed : Bool
  nextWorkerId : Nat
  deriving DecidableEq, Repr

/-- `func NewPool(size int) (*Pool, error)`: rejects `size <= 0` with
`PoolSizeInvalidError`, otherwise returns a pool with the given
capacity, empty channels/slices and `closed = 0`. -/
def NewPool (size : Int) : Except PoolError PoolState :=
  if size ≤ 0 then .error .PoolSizeInvalidError
  else .ok { capacity := size
             running := 0
             freeSignal := 0
             workers := []
             workerPool := []
             releaseClosed := false
             closed := false
             nextWorkerId := 0 }

/-- `func (p *Pool) Running() int`: atomic load of `running`. -/
def PoolState.Running (p : PoolState) : Int := p.running

/-- `func (p *Pool) Free() int`: `capacity - running`. -/
def PoolState.Free (p : PoolState) : Int := p.capacity - p.running

/-- `func (p *Pool) Cap() int`: atomic load of `capacity`. -/
def PoolState.Cap (p : PoolState) : Int := p.capacity

/-- `func (p *Pool) ReSize(size int)`: stores `size` into `capacity`. -/
def PoolState.ReSize (p : PoolState) (size : Int) : PoolState :=
  { p with capacity := size }

/-- `func (p *Pool) Release() error`: sets `closed` to 1 and closes the
`release` channel.  Closing an already-closed channel panics in Go,
modelled by returning `none`. -/
def PoolState.Release (p : PoolState) : Option PoolState :=
  if p.releaseClosed then none
  else some { p with closed := true, releaseClosed := true }

/-- Outcome of one `p.workerPool.Get()` call: the oracle `choice` fixes
which cached item (if any) the runtime hands back; the chosen item is
removed from the cache. -/
def syncPoolGet (cache : List Nat) (choice : Option Nat) :
    Option Nat × List Nat :=
  match choice with
  | none => (none, cache)
  | some w => (some w, cache.erase w)

/-- The outcomes of `sync.Pool.Get` that the Go runtime permits:
`nil` (always possible — the collector may have reclaimed every cached
item), or an arbitrary item currently in the cache. -/
def validGetChoice (cache : List Nat) (choice : Option Nat) : Prop :=
  choice = none ∨ ∃ w, choice = some w ∧ w ∈ cache

/-- `func (p *Pool) getWorker() *Worker`, sequentialized.

Following the source: pop the last element of `p.workers` if the slice
is non-empty, else set `waiting` when `running >= capacity`.  In the
`waiting` branch the caller blocks on `<-p.freeSignal` (no buffered
unit: blocks forever, `none`) and then busy-retries popping the idle
stack — which in a sequential execution is still empty, so the loop
spins forever (`none`).  In the non-`waiting` branch the source
consults `p.workerPool.Get()` UNCONDITIONALLY (there is no `w == nil`
guard), so a worker popped from the idle stack is discarded and
replaced by the cache hit, or by a freshly minted worker (incrementing
`running`) on a cache miss. -/
def PoolState.getWorker (p : PoolState) (choice : Option Nat) :
    Option (PoolState × Nat) :=
  match p.workers.getLast? with
  | none =>
      if p.capacity ≤ p.running then
        none
      else
        match syncPoolGet p.workerPool choice with
        | (none, cache) =>
            some ({ p with workerPool := cache
                           running := p.running + 1
                           nextWorkerId := p.nextWorkerId + 1 },
                  p.nextWorkerId)
        | (some w, cache) =>
            some ({ p with workerPool := cache }, w)
  | some _ =>
      let p₁ : PoolState := { p with workers := p.workers.dropLast }
      match syncPoolGet p₁.workerPool choice with
      | (none, cache) =>
          some ({ p₁ with workerPool := cache
                          running := p₁.running + 1
                          nextWorkerId := p₁.nextWorkerId + 1 },
                p₁.nextWorkerId)
      | (some w, cache) =>
          some ({ p₁ with workerPool := cache }, w)

/-- `func (p *Pool) putWorker(worker *Worker)`: `workerPool.Put`, then
append to the idle slice under the lock, then send one unit on
`freeSignal`. -/
def PoolState.putWorker (p : PoolState) (w : Nat) : PoolState :=
  { p with workerPool := p.workerPool ++ [w]
           workers := p.workers ++ [w]
           freeSignal := p.freeSignal + 1 }

/-- Result of `func (p *Pool) Push(task f) error`: the `PoolClosedError`
return, a successful hand-off of the task to worker `w` leaving the pool
in state `p`, or an indefinite block inside `getWorker`. -/
inductive PushResult
  | closedErr
  | handed (p : PoolState) (w : Nat)
  | blocked
  deriving DecidableEq, Repr

/-- `func (p *Pool) Push(task f) error`: returns `PoolClosedError` when
the closed flag is set, otherwise obtains a worker via `getWorker` and
hands it the task (`w.sendTask(task)`; the opaque task payload does not
affect the pool state). -/
def PoolState.Push (p : PoolState) (choice : Option Nat) : PushResult :=
  if p.closed then .closedErr
  else
    match p.getWorker choice with
    | some (p', w) => .handed p' w
    | none => .blocked

/-- Number of ticks a `time.Ticker` with period `interval` emits before
its `Stop` is executed at time `stopTime` (ticks fire at times
`interval, 2*interval, ...`; `Stop` prevents all later ticks). -/
def tickerTicksBeforeStop (interval stopTime : Nat) : Nat :=
  stopTime / interval

/-- Number of executions of the loop body in the goroutine of
`func (p *Pool) scanAndClean()`.  The goroutine runs `ticker.Stop()` as
its very first statement — `stopDelay` time units after
`time.NewTicker` — and only then enters `for range ticker.C`.  `Stop`
does not close the channel, so the range loop can only consume ticks
already buffered at the moment of `Stop`; the ticker channel buffers at
most one tick. -/
def scanAndCleanBodyExecs (interval stopDelay : Nat) : Nat :=
  min (tickerTicksBeforeStop interval stopDelay) 1

/-- Workers the sweeper stops: on each execution of the loop body, if
the pool's closed flag is 1, every worker in `p.workers` is stopped
(`w.stop()` for each `w` in the slice). -/
def scanAndCleanStoppedWorkers (p : PoolState) (interval stopDelay : Nat) :
    List Nat :=
  if scanAndCleanBodyExecs interval stopDelay = 0 then []
  else if p.closed then p.workers else []

/-- One client-visible pool operation, for reasoning about arbitrary
operation sequences.  The `Option Nat` arguments are the `sync.Pool`
oracle of the embedded `Get` call; `sweep` carries the ticker period and
the delay before the sweeper goroutine is scheduled. -/
inductive Op
  | push (choice : Option Nat)
  | getW (choice : Option Nat)
  | putW (w : Nat)
  | reSize (size : Int)
  | release
  | sweep (interval stopDelay : Nat)
  deriving Repr

/-- Effect of one operation on the pool state.  Blocked `Push`/`getWorker`
calls and a panicking second `Release` leave the state unchanged.
`sweep` leaves every tracked field unchanged: `Worker.stop` only ends
the worker's goroutine. Modelled from the spec: `worker.go` is not part
of the provided source; per the spec, worker termination performs no
adjustment of the `running` counter (§4.2 "The base design performs no
explicit decrement of `running` on termination"). -/
def applyOp (p : PoolState) (op : Op) : PoolState :=
  match op with
  | .push c =>
      match p.Push c with
      | .handed p' _ => p'
      | _ => p
  | .getW c =>
      match p.getWorker c with
      | some (p', _) => p'
      | none => p
  | .putW w => p.putWorker w
  | .reSize n => p.ReSize n
  | .release =>
      match p.Release with
      | some p' => p'
      | none => p
  | .sweep _ _ => p

/-- Pool state after running a sequence of operations. -/
def runOps (p : PoolState) (ops : List Op) : PoolState :=
  ops.foldl applyOp p

/-- The pool state reached from `NewPool 1` by minting one worker and
returning it via `putWorker`: one worker (id 0) minted and idle, idle
stack `[0]`, `sync.Pool` cache `[0]`, `running = capacity = 1`. -/
def poolAfterRoundTripSetup : PoolState :=
  { capacity := 1
    running := 1
    freeSignal := 1
    workers := [0]
    workerPool := [0]
    releaseClosed := false
    closed := false
    nextWorkerId := 1 }

/-- The pool returned by `NewPool 1`. -/
def freshPool1 : PoolState :=
  { capacity := 1, running := 0, freeSignal := 0, workers := [],
    workerPool := [], releaseClosed := false, closed := false,
    nextWorkerId := 0 }

/-- The pool after `freshPool1` mints its first worker (id 0) in
`getWorker`. -/
def poolOneMinted : PoolState :=
  { capacity := 1, running := 1, freeSignal := 0, workers := [],
    workerPool := [], releaseClosed := false, closed := false,
    nextWorkerId := 1 }

/-- The pool after `poolAfterRoundTripSetup.getWorker none`: the idle
worker 0 was popped off the stack and then discarded, and a second
worker (id 1) was minted, pushing `running` to 2 above the capacity
of 1. -/
def poolAfterOvercommitMint : PoolState :=
  { capacity := 1, running := 2, freeSignal := 1, workers := [],
    workerPool := [0], releaseClosed := false, closed := false,
    nextWorkerId := 2 }

lemma getWorker_some_frame (p : PoolState) (c : Option Nat) (q : PoolState) (w : Nat)
    (h : p.getWorker c = some (q, w)) :
    q.capacity = p.capacity ∧ q.closed = p.closed ∧ q.releaseClosed = p.releaseClosed ∧
    q.freeSignal = p.freeSignal ∧ p.running ≤ q.running := by
  cases hL : p.workers.getLast?
  · by_cases hc : p.capacity ≤ p.running
    · simp [PoolState.getWorker, hL, hc] at h
    · cases c <;> simp [PoolState.getWorker, hL, hc, syncPoolGet] at h <;>
        obtain ⟨h1, h2⟩ := h <;> subst h1 <;> simp
  · cases c <;> simp [PoolState.getWorker, hL, syncPoolGet] at h <;>
      obtain ⟨h1, h2⟩ := h <;> subst h1 <;> simp

lemma getWorker_ignores_closed (p : PoolState) (b : Bool) (c : Option Nat) :
    ({ p with closed := b } : PoolState).getWorker c =
      (p.getWorker c).map (fun r => ({ r.1 with closed := b }, r.2)) := by
  cases hL : p.workers.getLast?
  · by_cases hc : p.capacity ≤ p.running
    · simp [PoolState.getWorker, hL, hc]
    · cases c <;> simp [PoolState.getWorker, hL, hc, syncPoolGet]
  · cases c <;> simp [PoolState.getWorker, hL, syncPoolGet]

lemma push_closedErr_iff (p : PoolState) (c : Option Nat) :
    p.Push c = .closedErr ↔ p.closed = true := by
  by_cases hcl : p.closed
  · simp [PoolState.Push, hcl]
  · cases hg : p.getWorker c with
    | none => simp [PoolState.Push, hcl, hg]
    | some r => simp [PoolState.Push, hcl, hg]

lemma applyOp_closed (p : PoolState) (op : Op) (h : p.closed = true) :
    (applyOp p op).closed = true := by
  cases op with
  | push c => simp [applyOp, PoolState.Push, h]
  | getW c =>
      cases hg : p.getWorker c with
      | none => simp [applyOp, hg, h]
      | some r =>
          obtain ⟨q, w⟩ := r
          have hq := (getWorker_some_frame p c q w hg).2.1
          simp [applyOp, hg, hq, h]
  | putW w => simpa [applyOp, PoolState.putWorker] using h
  | reSize n => simpa [applyOp, PoolState.ReSize] using h
  | release =>
      by_cases hr : p.releaseClosed <;> simp [applyOp, PoolState.Release, hr, h]
  | sweep i d => simpa [applyOp] using h

lemma runOps_closed (p : PoolState) (ops : List Op) (h : p.closed = true) :
    (runOps p ops).closed = true := by
  induction ops generalizing p with
  | nil => simpa [runOps] using h
  | cons op ops ih =>
      simpa [runOps, List.foldl] using ih (applyOp p op) (applyOp_closed p op h)

lemma applyOp_running (p : PoolState) (op : Op) :
    p.running ≤ (applyOp p op).running := by
  cases op with
  | push c =>
      by_cases hcl : p.closed
      · simp [applyOp, PoolState.Push, hcl]
      · cases hg : p.getWorker c with
        | none => simp [applyOp, PoolState.Push, hcl, hg]
        | some r =>
            obtain ⟨q, w⟩ := r
            have hq := (getWorker_some_frame p c q w hg).2.2.2.2
            simpa [applyOp, PoolState.Push, hcl, hg] using hq
  | getW c =>
      cases hg : p.getWorker c with
      | none => simp [applyOp, hg]
      | some r =>
          obtain ⟨q, w⟩ := r
          have hq := (getWorker_some_frame p c q w hg).2.2.2.2
          simpa [applyOp, hg] using hq
  | putW w => simp [applyOp, PoolState.putWorker]
  | reSize n => simp [applyOp, PoolState.ReSize]
  | release => by_cases hr : p.releaseClosed <;> simp [applyOp, PoolState.Release, hr]
  | sweep i d => simp [applyOp]

lemma runOps_running (p : PoolState) (ops : List Op) :
    p.running ≤ (runOps p ops).running := by
  induction ops generalizing p with
  | nil => simp [runOps]
  | cons op ops ih =>
      calc p.running ≤ (applyOp p op).running := applyOp_running p op
        _ ≤ (runOps (applyOp p op) ops).running := ih (applyOp p op)
        _ = (runOps p (op :: ops)).running := by simp [runOps, List.foldl]

/-- Claim C1 (refuting evaluation): the claim says that on a pool with a
non-empty idle stack, `getWorker` returns the most-recently-freed worker
popped from the top of the stack, and that a `putWorker`/`getWorker`
round trip returns the exact same worker instance.  On the code this
fails: starting from `NewPool 1`, worker 0 is minted and returned via
`putWorker`, so the idle stack is `[0]`; `getWorker` pops worker 0 but —
the source has no `w == nil` guard before consulting the `sync.Pool`
cache — when the cache `Get` returns `nil` (`validGetChoice` permits
this at any time) it discards worker 0 and returns a freshly minted
worker 1 ≠ 0. -/
theorem getWorker_discards_popped_idle_worker :
    NewPool 1 = .ok freshPool1 ∧
    freshPool1.getWorker none = some (poolOneMinted, 0) ∧
    poolOneMinted.putWorker 0 = poolAfterRoundTripSetup ∧
    poolAfterRoundTripSetup.workers = [0] ∧
    validGetChoice poolAfterRoundTripSetup.workerPool none ∧
    poolAfterRoundTripSetup.getWorker none = some (poolAfterOvercommitMint, 1) ∧
    (1 : Nat) ≠ 0 :=
  ⟨by rfl, by decide, by decide, by decide, Or.inl rfl, by decide, by decide⟩

/-- Claim C2 (refuting evaluation): the claim says a new worker is
minted only if `running < capacity` held at the instant of the check.
On the code, the path through a non-empty idle stack performs no
capacity check at all: in the reachable state `poolAfterRoundTripSetup`
(capacity 1, running 1, idle stack `[0]`), `getWorker` with a `nil`
cache `Get` mints a new worker — the returned id 1 is the fresh
`nextWorkerId` and `running` rises to 2 — even though
`capacity ≤ running` held at the call. -/
theorem getWorker_mints_beyond_capacity :
    runOps freshPool1 [Op.getW none, Op.putW 0] = poolAfterRoundTripSetup ∧
    poolAfterRoundTripSetup.capacity ≤ poolAfterRoundTripSetup.running ∧
    validGetChoice poolAfterRoundTripSetup.workerPool none ∧
    (poolAfterRoundTripSetup.getWorker none).map
        (fun r => (r.1.running, r.2)) = some (2, 1) ∧
    poolAfterRoundTripSetup.nextWorkerId = 1 :=
  ⟨by decide, by decide, Or.inl rfl, by decide, by decide⟩

/-- Claim C3: `Push` returns `PoolClosedError` if and only if the
pool's closed flag is set at entry; when the pool is open, `Push` never
returns an error (it hands the task to a worker, or blocks indefinitely
inside `getWorker`); and after `Release` succeeds, every subsequent
`Push` — after any further sequence of pool operations — fails with
`PoolClosedError`. -/
theorem push_fails_with_poolClosed_iff_closed (p : PoolState) (c : Option Nat) :
    (p.Push c = .closedErr ↔ p.closed = true) ∧
    (p.closed = false →
      (∃ q w, p.Push c = .handed q w) ∨ p.Push c = .blocked) ∧
    (∀ q, p.Release = some q →
      ∀ ops c', (runOps q ops).Push c' = .closedErr) := by
  refine ⟨push_closedErr_iff p c, ?_, ?_⟩
  · intro hcl
    cases hg : p.getWorker c with
    | none => exact Or.inr (by simp [PoolState.Push, hcl, hg])
    | some r => exact Or.inl ⟨r.1, r.2, by simp [PoolState.Push, hcl, hg]⟩
  · intro q hq ops c'
    have hqc : q.closed = true := by
      unfold PoolState.Release at hq
      split at hq
      · cases hq
      · injection hq with h'; subst h'; rfl
    exact (push_closedErr_iff (runOps q ops) c').mpr (runOps_closed q ops hqc)

/-- Witness for C3 at the concrete pool `freshPool1`: an open pool's
`Push` does not return `PoolClosedError`, and after `Release` it
deterministically does. -/
theorem push_fails_with_poolClosed_iff_closed_witness :
    (freshPool1.Push none = .closedErr ↔ freshPool1.closed = true) ∧
    ((∃ q w, freshPool1.Push none = .handed q w) ∨
      freshPool1.Push none = .blocked) ∧
    (runOps { freshPool1 with closed := true, releaseClosed := true } []).Push none
      = .closedErr :=
  ⟨(push_fails_with_poolClosed_iff_closed freshPool1 none).1,
   (push_fails_with_poolClosed_iff_closed freshPool1 none).2.1 rfl,
   (push_fails_with_poolClosed_iff_closed freshPool1 none).2.2
     { freshPool1 with closed := true, releaseClosed := true } rfl [] none⟩

/-- Claim C4: a first `Release` sets the closed flag and closes the
`release` channel (fires the shutdown signal) exactly once; on any pool
on which `Release` has already succeeded, a second `Release` panics
(close of an already-closed channel, modelled as `none`) instead of
being a no-op. -/
theorem release_double_invocation_panics (p q : PoolState) :
    (p.releaseClosed = false →
      p.Release = some { p with closed := true, releaseClosed := true }) ∧
    (p.Release = some q → q.closed = true ∧ q.releaseClosed = true ∧
      q.Release = none) := by
  constructor
  · intro h; simp [PoolState.Release, h]
  · intro h
    unfold PoolState.Release at h
    split at h
    · cases h
    · injection h with h'; subst h'
      exact ⟨rfl, rfl, by simp [PoolState.Release]⟩

/-- Witness for C4 at the concrete pool `freshPool1`: the first
`Release` closes the pool, the second panics. -/
theorem release_double_invocation_panics_witness :
    freshPool1.Release =
      some { freshPool1 with closed := true, releaseClosed := true } ∧
    ({ freshPool1 with closed := true, releaseClosed := true } : PoolState).Release
      = none :=
  ⟨(release_double_invocation_panics freshPool1 freshPool1).1 rfl,
   ((release_double_invocation_panics freshPool1
       { freshPool1 with closed := true, releaseClosed := true }).2
      ((release_double_invocation_panics freshPool1 freshPool1).1 rfl)).2.2⟩

/-- Claim C5: `NewPool size` fails with `PoolSizeInvalidError` exactly
when `size ≤ 0`, and for every positive `size` returns a pool with
capacity `size`, an empty idle registry and `sync.Pool` cache,
`running = 0`, no buffered signals, and `closed = false`. -/
theorem newPool_validates_capacity (size : Int) :
    (NewPool size = .error .PoolSizeInvalidError ↔ size ≤ 0) ∧
    (0 < size →
      NewPool size =
        .ok { capacity := size, running := 0, freeSignal := 0, workers := [],
              workerPool := [], releaseClosed := false, closed := false,
              nextWorkerId := 0 }) := by
  constructor
  · unfold NewPool; split <;> simp_all
  · intro h; unfold NewPool; rw [if_neg (by omega)]

/-- Witness for C5 at the concrete sizes `-5` (rejected) and `1`
(accepted with the empty initial state). -/
theorem newPool_validates_capacity_witness :
    NewPool (-5) = .error .PoolSizeInvalidError ∧
    NewPool 1 =
      .ok { capacity := 1, running := 0, freeSignal := 0, workers := [],
            workerPool := [], releaseClosed := false, closed := false,
            nextWorkerId := 0 } :=
  ⟨(newPool_validates_capacity (-5)).1.mpr (by decide),
   (newPool_validates_capacity 1).2 (by decide)⟩

/-- Claim C6: the sweeper goroutine of `scanAndClean` calls
`ticker.Stop()` as its first statement, before the first tick of the
ticker can fire (`stopDelay < interval`), so the `for range ticker.C`
loop body executes zero times and, for every pool state (closed or
not), no idle worker is ever stopped by the sweeper. -/
theorem sweeper_never_fires (p : PoolState) (interval stopDelay : Nat)
    (_hi : 0 < interval) (hs : stopDelay < interval) :
    scanAndCleanBodyExecs interval stopDelay = 0 ∧
    scanAndCleanStoppedWorkers p interval stopDelay = [] := by
  have h0 : tickerTicksBeforeStop interval stopDelay = 0 := Nat.div_eq_of_lt hs
  exact ⟨by simp [scanAndCleanBodyExecs, h0],
         by simp [scanAndCleanStoppedWorkers, scanAndCleanBodyExecs, h0]⟩

/-- Witness for C6 on a closed pool with a non-empty idle stack:
the sweeper still stops nothing. -/
theorem sweeper_never_fires_witness :
    scanAndCleanBodyExecs 1 0 = 0 ∧
    scanAndCleanStoppedWorkers
      { poolAfterRoundTripSetup with closed := true } 1 0 = [] :=
  sweeper_never_fires { poolAfterRoundTripSetup with closed := true } 1 0
    (by decide) (by decide)

/-- Claim C7: `running` is incremented on worker creation and never
decremented by any pool operation: along every sequence of operations
the reported `Running()` is monotonically non-decreasing, and starting
from any pool built by `NewPool` it is always non-negative. -/
theorem running_count_monotone_nonnegative (p q : PoolState) (ops : List Op)
    (size : Int) :
    p.Running ≤ (runOps p ops).Running ∧
    (NewPool size = .ok q → 0 ≤ (runOps q ops).Running) := by
  constructor
  · exact runOps_running p ops
  · intro h
    have hq : q.running = 0 := by
      unfold NewPool at h
      split at h
      · cases h
      · injection h with h'; subst h'; rfl
    have hmono := runOps_running q ops
    simp only [PoolState.Running]
    omega

/-- Witness for C7 on a concrete operation sequence from `NewPool 1`
that mints, recycles, shrinks and releases. -/
theorem running_count_monotone_nonnegative_witness :
    freshPool1.Running ≤
      (runOps freshPool1
        [Op.getW none, Op.putW 0, Op.reSize (-3), Op.release]).Running ∧
    0 ≤ (runOps freshPool1
        [Op.getW none, Op.putW 0, Op.reSize (-3), Op.release]).Running :=
  ⟨(running_count_monotone_nonnegative freshPool1 freshPool1
      [Op.getW none, Op.putW 0, Op.reSize (-3), Op.release] 1).1,
   (running_count_monotone_nonnegative freshPool1 freshPool1
      [Op.getW none, Op.putW 0, Op.reSize (-3), Op.release] 1).2 rfl⟩

/-- Claim C8: in every pool state `Free()` returns exactly
`Cap() - Running()`, and the value can go negative after a downward
resize: from `NewPool 1`, minting one worker and then resizing to 0
makes `Free()` negative (no clamping). -/
theorem free_equals_cap_minus_running (p q : PoolState) :
    p.Free = p.Cap - p.Running ∧
    (NewPool 1 = .ok q → (runOps q [Op.getW none, Op.reSize 0]).Free < 0) := by
  constructor
  · rfl
  · intro h
    have hq : q = freshPool1 := by
      unfold NewPool at h
      split at h
      · cases h
      · injection h with h'; exact h'.symm ▸ rfl
    subst hq
    decide

/-- Witness for C8 at a concrete state and the concrete
mint-then-shrink sequence, where `Free` reads `-1`. -/
theorem free_equals_cap_minus_running_witness :
    poolAfterRoundTripSetup.Free =
      poolAfterRoundTripSetup.Cap - poolAfterRoundTripSetup.Running ∧
    (runOps freshPool1 [Op.getW none, Op.reSize 0]).Free < 0 :=
  ⟨(free_equals_cap_minus_running poolAfterRoundTripSetup freshPool1).1,
   (free_equals_cap_minus_running poolAfterRoundTripSetup freshPool1).2 rfl⟩

/-- Claim C9: for every integer `size` — zero and negative values
included, no validation is performed — `ReSize` replaces the pool's
capacity with `size` and changes nothing else: `running`, the closed
flag, the idle stack, the `sync.Pool` cache, the buffered signals, the
release-channel state and the worker-id allocator are all unchanged. -/
theorem reSize_replaces_capacity_only (p : PoolState) (size : Int) :
    (p.ReSize size).capacity = size ∧
    (p.ReSize size).running = p.running ∧
    (p.ReSize size).closed = p.closed ∧
    (p.ReSize size).workers = p.workers ∧
    (p.ReSize size).workerPool = p.workerPool ∧
    (p.ReSize size).freeSignal = p.freeSignal ∧
    (p.ReSize size).releaseClosed = p.releaseClosed ∧
    (p.ReSize size).nextWorkerId = p.nextWorkerId :=
  ⟨rfl, rfl, rfl, rfl, rfl, rfl, rfl, rfl⟩

/-- Claim C10: neither `putWorker` nor `getWorker` consults the closed
flag.  Flipping `closed` to any value commutes with both operations
(they behave identically on closed and open pools and leave the flag
unchanged); `putWorker` always caches the worker, pushes it onto the
idle stack and posts one availability-signal unit; and the closed flag
gates exactly the entry check of `Push`. -/
theorem closed_flag_gates_only_push (p : PoolState) (w : Nat) (b : Bool)
    (c : Option Nat) :
    ({ p with closed := b } : PoolState).putWorker w =
      { p.putWorker w with closed := b } ∧
    ({ p with closed := b } : PoolState).getWorker c =
      (p.getWorker c).map (fun r => ({ r.1 with closed := b }, r.2)) ∧
    (p.putWorker w).workerPool = p.workerPool ++ [w] ∧
    (p.putWorker w).workers = p.workers ++ [w] ∧
    (p.putWorker w).freeSignal = p.freeSignal + 1 ∧
    (p.Push c = .closedErr ↔ p.closed = true) :=
  ⟨rfl, getWorker_ignores_closed p b c, rfl, rfl, rfl, push_closedErr_iff p c⟩
